import Mathlib

/-!
Shallow embedding of src/benchmark.py.

The program is a bounded web crawler benchmarked under three strategies:
sequential (ThreadedCrawler.crawl_single), worker pool
(ThreadedCrawler.crawl_threaded with a ThreadPoolExecutor), and cooperative
concurrency (AsyncCrawler.worker tasks driven by asyncio).

External collaborators (the requests/aiohttp HTTP layer, BeautifulSoup
extraction of href attributes and of title/body text, and
urllib.parse.urljoin) are modelled as an environment of abstract functions.
Everything else (queue and visited-set management, the scheduling loops,
page counting, the persistence side effects) is translated line by line
from the source.

Machine-level nondeterminism is made explicit:
- the worker-pool strategy takes an oracle, a list of batches, where batch k
  is the ordered done-set returned by the k-th call to
  concurrent.futures.wait(futures, return_when=FIRST_COMPLETED); oracle
  entries not present in the snapshot of futures at wait time are no-ops;
- the cooperative strategy takes a schedule of resume events. asyncio runs
  every task created by gather up to its first true suspension point (the
  awaited HTTP request; the semaphore of capacity `concurrency` is never
  contended by the `concurrency` workers, so acquiring it does not suspend)
  before any fetch completion is delivered, so the model first runs every
  worker once (startAll) and then folds an arbitrary list of fetch
  completions (runResumes), each of which atomically runs the resumed worker
  to its next suspension point or to its end.

A ghost field fetchLog records, in order, every URL handed to fetch, so that
claims about a URL being fetched (once, twice, first) are stated directly.
-/

/-- Failure cases swallowed by the bare `except:` around the HTTP request:
requests / aiohttp timeouts, connection errors, and the non-2xx statuses
turned into exceptions by raise_for_status. -/
inductive FetchError where
  | timeout
  | connError
  | badStatus
deriving DecidableEq, Repr

/-- A document stored in the webpages collection by ThreadedCrawler.parse. -/
structure PageRec where
  url : String
  title : String
  content : String
deriving DecidableEq, Repr

/-- The external collaborators of the crawler, abstracted as functions:
rawGet is the underlying HTTP GET (requests.get / session.get together with
raise_for_status), findLinks html is the list of href attribute values that
BeautifulSoup finds in html (soup.find_all with href true, in document
order), soupTitle and soupBody extract title text and body text, and urljoin
is urllib.parse.urljoin. -/
structure Env where
  rawGet : String → Except FetchError String
  findLinks : String → List String
  soupTitle : String → String
  soupBody : String → String
  urljoin : String → String → String

/-- Python str.startswith as used in both parse methods: a character-level
test of whether pre is a prefix of s. (Lean's String.startsWith has the same
value, but its byte-position loop does not reduce inside the kernel, so the
embedding uses the character-list form.) -/
def pyStartswith (s pre : String) : Bool :=
  pre.data.isPrefixOf s.data

/-- ThreadedCrawler.fetch and AsyncCrawler.fetch: perform the GET and on any
failure return the empty string; the try/except means no exception ever
reaches the caller, which is expressed here by the function being total with
result type String. -/
def fetch (e : Env) (url : String) : String :=
  match e.rawGet url with
  | .ok t => t
  | .error _ => ""

/-- The mutable state of a ThreadedCrawler object. queue is self.queue
(a deque of URL strings), visited is self.visited (a set, modelled as a
duplicate-free list), collection is the webpages collection of the document
store when MONGO_URI is configured (None when it is not), and fetchLog is a
ghost trace of the URLs handed to fetch. -/
structure ThreadedCrawler where
  queue : List String
  visited : List String
  max_pages : Nat
  pages_crawled : Nat
  collection : Option (List PageRec)
  fetchLog : List String
deriving DecidableEq, Repr

/-- ThreadedCrawler.__init__: queue holds exactly the seed URL (no scheme
check, no visited marking), visited is empty, pages_crawled is 0, and when a
store is configured every existing document of the webpages collection is
deleted (collection.delete_many applied to the whole collection). -/
def ThreadedCrawler.init (seed_url : String) (max_pages : Nat)
    (db : Option (List PageRec)) : ThreadedCrawler :=
  { queue := [seed_url]
    visited := []
    max_pages := max_pages
    pages_crawled := 0
    collection := db.map (fun _ => [])
    fetchLog := [] }

/-- ThreadedCrawler.parse: insert the page record into the collection when a
store is configured, then append to the queue every href found in the html
that starts with the literal string "http" and is not in the visited set.
Nothing is added to visited here, and hrefs are used exactly as found (no
resolution against the page URL). The visited set is constant during the
loop, so the appended hrefs are exactly a filter of findLinks html. -/
def ThreadedCrawler.parse (e : Env) (url html : String)
    (c : ThreadedCrawler) : ThreadedCrawler :=
  let rec1 : PageRec :=
    { url := url, title := e.soupTitle html,
      content := (e.soupBody html).take 500 }
  let c1 : ThreadedCrawler :=
    { c with collection := c.collection.map (fun docs => docs ++ [rec1]) }
  let newLinks : List String :=
    (e.findLinks html).filter
      (fun href => pyStartswith href "http" && !c.visited.contains href)
  { c1 with queue := c1.queue ++ newLinks }

/-- The popleft plus visited.add prelude shared by every strategy: remove the
head URL from the queue, add it to visited, and record the fetch of that URL
in the ghost log. -/
def seqStepPop (c : ThreadedCrawler) (u : String) (rest : List String) :
    ThreadedCrawler :=
  { c with queue := rest
           visited := c.visited.insert u
           fetchLog := c.fetchLog ++ [u] }

/-- One successful iteration of ThreadedCrawler.crawl_single on URL u: pop,
fetch (non-empty), parse, and increment pages_crawled by one. -/
def seqStepSucc (e : Env) (c : ThreadedCrawler) (u : String)
    (rest : List String) : ThreadedCrawler :=
  let c2 := (seqStepPop c u rest).parse e u (fetch e u)
  { c2 with pages_crawled := c2.pages_crawled + 1 }

/-- ThreadedCrawler.crawl_single: while the queue is non-empty and
pages_crawled < max_pages, pop one URL, fetch it, and when the content is
non-empty parse it (persist plus enqueue links) and increment pages_crawled;
a failed fetch (empty content) pops the URL without incrementing. -/
def crawl_single (e : Env) (c : ThreadedCrawler) : ThreadedCrawler :=
  match hq : c.queue with
  | [] => c
  | u :: rest =>
    if hp : c.pages_crawled < c.max_pages then
      if fetch e u ≠ "" then
        crawl_single e (seqStepSucc e c u rest)
      else
        crawl_single e (seqStepPop c u rest)
    else c
termination_by (c.max_pages - c.pages_crawled, c.queue.length)
decreasing_by
  · apply Prod.Lex.left
    simp [seqStepSucc, seqStepPop, ThreadedCrawler.parse]
    omega
  · apply Prod.Lex.right
    simp [seqStepPop, hq]

/-- ThreadedCrawler.fetch_and_parse, the body submitted to the thread pool:
fetch the URL and, when the content is non-empty, parse it (persist the page
and append the discovered links to the shared queue). It does not touch
pages_crawled. -/
def ThreadedCrawler.fetch_and_parse (e : Env) (url : String)
    (c : ThreadedCrawler) : ThreadedCrawler :=
  let html := fetch e url
  if html ≠ "" then c.parse e url html else c

/-- The refill performed by crawl_threaded after removing a finished future:
if the queue is non-empty, pop its head, add it to visited, and submit one
new future for it (append it to the futures list). -/
def refill (futs : List String) (c : ThreadedCrawler) :
    List String × ThreadedCrawler :=
  match c.queue with
  | [] => (futs, c)
  | nxt :: q => (futs ++ [nxt], seqStepPop c nxt q)

/-- What the crawl_threaded main loop does for one future fut of the done
set: fut.result() makes the effects of fetch_and_parse on the shared state
visible, pages_crawled is incremented by one unconditionally, fut is removed
from the futures list, and at most one replacement future is submitted. -/
def completeFuture (e : Env) (url : String) (futs : List String)
    (c : ThreadedCrawler) : List String × ThreadedCrawler :=
  let c1 := ThreadedCrawler.fetch_and_parse e url c
  let c2 := { c1 with pages_crawled := c1.pages_crawled + 1 }
  refill (futs.erase url) c2

/-- The for loop of crawl_threaded over one done set. done is the ordered
list of URLs whose futures the wait call reported finished; avail is the
snapshot of the futures list at wait time, consumed as the loop goes so that
a URL is completed at most as many times as it was in flight; an entry
absent from avail is a no-op (the oracle named a future that did not exist,
which cannot happen in a real run). -/
def processBatch (e : Env) : List String → List String → List String →
    ThreadedCrawler → List String × ThreadedCrawler
  | [], _, futs, c => (futs, c)
  | u :: rest, avail, futs, c =>
    if u ∈ avail then
      let fc := completeFuture e u futs c
      processBatch e rest (avail.erase u) fc.1 fc.2
    else
      processBatch e rest avail futs c

/-- The number of entries of done that processBatch treats as valid
completions against the snapshot avail. -/
def countValid : List String → List String → Nat
  | [], _ => 0
  | u :: rest, avail =>
    if u ∈ avail then countValid rest (avail.erase u) + 1
    else countValid rest avail

/-- The kickoff loop of crawl_threaded: n times, pop a URL, add it to
visited, and submit a future for it. crawl_threaded calls it with
n = min (length of queue) max_workers, so the queue guard never fires there;
it makes the recursion total. Returns the submitted futures in order. -/
def kickoff : Nat → ThreadedCrawler → List String × ThreadedCrawler
  | 0, c => ([], c)
  | n + 1, c =>
    match c.queue with
    | [] => ([], c)
    | u :: rest =>
      let fc := kickoff n (seqStepPop c u rest)
      (u :: fc.1, fc.2)

/-- The while loop of crawl_threaded: while the futures list is non-empty
and pages_crawled < max_pages, wait for a done set (one oracle batch) and
process it. A run whose oracle is exhausted while the loop would continue is
returned as is (every universally quantified theorem below holds for those
truncated runs too). -/
def thrLoop (e : Env) : List (List String) → List String →
    ThreadedCrawler → ThreadedCrawler
  | [], _, c => c
  | d :: ds, futs, c =>
    if futs ≠ [] ∧ c.pages_crawled < c.max_pages then
      let fc := processBatch e d futs futs c
      thrLoop e ds fc.1 fc.2
    else c

/-- ThreadedCrawler.crawl_threaded: kickoff min (queue length) max_workers
futures, then run the wait/complete/refill loop under the given completion
oracle. -/
def crawl_threaded (e : Env) (max_workers : Nat)
    (oracle : List (List String)) (c : ThreadedCrawler) : ThreadedCrawler :=
  let fc := kickoff (min c.queue.length max_workers) c
  thrLoop e oracle fc.1 fc.2

/-- The mutable state of an AsyncCrawler object: self.queue, self.visited,
self.max_pages, self.pages. -/
structure AsyncCrawler where
  queue : List String
  visited : List String
  max_pages : Nat
  pages : Nat
deriving DecidableEq, Repr

/-- AsyncCrawler.__init__: queue holds exactly the seed URL (no scheme
check, no visited marking), visited is empty, pages is 0. -/
def AsyncCrawler.init (seed_url : String) (max_pages : Nat) : AsyncCrawler :=
  { queue := [seed_url], visited := [], max_pages := max_pages, pages := 0 }

/-- AsyncCrawler.parse: append to the queue every href found in the html,
resolved against the page URL with urljoin, that starts with the literal
string "http" and is not in the visited set. visited is constant during the
loop, so the appended hrefs are exactly a map followed by a filter. -/
def AsyncCrawler.parse (e : Env) (url html : String)
    (a : AsyncCrawler) : AsyncCrawler :=
  let newLinks : List String :=
    ((e.findLinks html).map (fun href => e.urljoin url href)).filter
      (fun href => pyStartswith href "http" && !a.visited.contains href)
  { a with queue := a.queue ++ newLinks }

/-- The state of one crawl invocation of AsyncCrawler: the shared crawler
object, the number ns of workers created by gather that have not yet run
their first step, the URLs whose fetches are in flight (each belonging to
one suspended worker), and the ghost log of URLs handed to fetch. -/
structure AsyncState where
  crawler : AsyncCrawler
  ns : Nat
  inflight : List String
  fetchLog : List String
deriving DecidableEq, Repr

/-- The first step of one AsyncCrawler.worker task: evaluate the while
condition (pages < max_pages, then queue non-empty); if it holds, pop the
head URL, add it to visited, and suspend awaiting its fetch; otherwise the
worker finishes at once. A worker that finds the queue empty exits for good,
it never waits for the queue to refill. -/
def workerEnter (s : AsyncState) : AsyncState :=
  match s.ns with
  | 0 => s
  | n + 1 =>
    let s1 : AsyncState := { s with ns := n }
    if s1.crawler.pages < s1.crawler.max_pages then
      match s1.crawler.queue with
      | [] => s1
      | u :: q =>
        { s1 with
          crawler := { s1.crawler with
                       queue := q, visited := s1.crawler.visited.insert u }
          inflight := s1.inflight ++ [u]
          fetchLog := s1.fetchLog ++ [u] }
    else s1

/-- The body of AsyncCrawler.worker after the awaited fetch of u returns:
when the content is non-empty the links are parsed into the queue, and
self.pages is incremented by one with no condition on the fetch result. -/
def resumeProcess (e : Env) (u : String) (a : AsyncCrawler) : AsyncCrawler :=
  let html := fetch e u
  let a1 := if html ≠ "" then a.parse e u html else a
  { a1 with pages := a1.pages + 1 }

/-- After processing a fetch result the worker re-evaluates the while
condition (pages < max_pages, then queue non-empty) without suspending: it
either pops the next URL, adds it to visited, and suspends awaiting its
fetch, or it finishes. s1 is the runner state with the finished fetch
already removed from inflight; a2 the crawler state after resumeProcess. -/
def resumeContinue (s1 : AsyncState) (a2 : AsyncCrawler) : AsyncState :=
  if a2.pages < a2.max_pages then
    match a2.queue with
    | [] => { s1 with crawler := a2 }
    | v :: q =>
      { s1 with
        crawler := { a2 with queue := q, visited := a2.visited.insert v }
        inflight := s1.inflight ++ [v]
        fetchLog := s1.fetchLog ++ [v] }
  else { s1 with crawler := a2 }

/-- The resumption of the worker whose in-flight fetch is inflight[i] (a
no-op for an invalid i): the fetch result arrives and is processed
(resumeProcess), then the worker loops or finishes (resumeContinue). All of
this is one atomic step of the cooperative scheduler: the only suspension
point is the awaited fetch. -/
def workerResume (e : Env) (i : Nat) (s : AsyncState) : AsyncState :=
  match s.inflight[i]? with
  | none => s
  | some u =>
    resumeContinue { s with inflight := s.inflight.eraseIdx i }
      (resumeProcess e u s.crawler)

/-- asyncio runs each of the n tasks created for gather up to its first true
suspension point, in creation order, before any fetch completion is
delivered: the ready queue already holds every task when the event loop
first polls for I/O. -/
def startAll : Nat → AsyncState → AsyncState
  | 0, s => s
  | n + 1, s => startAll n (workerEnter s)

/-- Fold a list of fetch-completion events (network nondeterminism) over the
state; each event resumes the worker whose fetch finished. -/
def runResumes (e : Env) : List Nat → AsyncState → AsyncState
  | [], s => s
  | i :: rest, s => runResumes e rest (workerResume e i s)

/-- AsyncCrawler.crawl: create concurrency worker tasks over the shared
state, run each to its first suspension, then deliver fetch completions in
the order chosen by the schedule. -/
def AsyncCrawler.crawl (e : Env) (concurrency : Nat) (sched : List Nat)
    (a : AsyncCrawler) : AsyncState :=
  runResumes e sched
    (startAll concurrency
      { crawler := a, ns := concurrency, inflight := [], fetchLog := [] })

/-- time_fn from the benchmark runner: call fn repeats times. fn is a bound
method of a crawler object constructed once in main, so each call starts
from the object state the previous call left behind; the returned value is
that shared object state after the last repetition (the elapsed wall-clock
samples themselves are not modelled). -/
def time_fn (fn : ThreadedCrawler → ThreadedCrawler) :
    Nat → ThreadedCrawler → ThreadedCrawler
  | 0, c => c
  | n + 1, c => time_fn fn n (fn c)

/-- The invariant of the start-up phase (all worker tasks take their first
step before any fetch completes): at most one fetch in flight, at most one
pending URL, the counter within budget, and whenever a fetch is in flight
the counter is strictly below budget and the queue has been emptied. With a
single seed URL the first worker takes it and every later worker sees an
empty queue and finishes at once. -/
def startInv (s : AsyncState) : Prop :=
  s.inflight.length ≤ 1 ∧
  s.crawler.queue.length ≤ 1 ∧
  s.crawler.pages ≤ s.crawler.max_pages ∧
  (s.inflight ≠ [] → s.crawler.pages < s.crawler.max_pages) ∧
  (s.inflight ≠ [] → s.crawler.queue = [])

/-- The invariant maintained by fetch completions after start-up: at most
one fetch in flight, the counter within budget, and strictly below budget
while a fetch is in flight (so the unconditional increment that follows the
in-flight fetch cannot pass the budget). -/
def asyncInv (s : AsyncState) : Prop :=
  s.inflight.length ≤ 1 ∧
  s.crawler.pages ≤ s.crawler.max_pages ∧
  (s.inflight ≠ [] → s.crawler.pages < s.crawler.max_pages)

/-- A deterministic stub environment on which every fetch succeeds and whose
content equals the fetched URL; the page at http://a links twice to
http://b and every other page has no links. -/
def envC1 : Env :=
  { rawGet := Except.ok
    findLinks := fun h =>
      if h = "http://a" then ["http://b", "http://b"] else []
    soupTitle := fun _ => ""
    soupBody := fun _ => ""
    urljoin := fun _ href => href }

/-- A deterministic stub environment: every fetch succeeds, http://a links
once to http://b, every other page has no links. -/
def envC3 : Env :=
  { rawGet := Except.ok
    findLinks := fun h => if h = "http://a" then ["http://b"] else []
    soupTitle := fun _ => ""
    soupBody := fun _ => ""
    urljoin := fun _ href => href }

/-- A stub environment on which every fetch fails with a timeout, so every
fetch returns empty content. -/
def envFail : Env :=
  { rawGet := fun _ => Except.error FetchError.timeout
    findLinks := fun _ => []
    soupTitle := fun _ => ""
    soupBody := fun _ => ""
    urljoin := fun _ href => href }

/-- A stub environment whose page PAGE holds one relative href and one href
with a scheme that merely starts with the four characters http; its urljoin
stub resolves a relative href by appending it to the base (enough to expose
that the threaded parse never calls urljoin at all). -/
def envC7 : Env :=
  { rawGet := Except.ok
    findLinks := fun h =>
      if h = "PAGE" then ["page2.html", "httpfake://evil"] else []
    soupTitle := fun _ => ""
    soupBody := fun _ => ""
    urljoin := fun base href =>
      if pyStartswith href "http" then href else base ++ href }

/-! ### Helper lemmas about the sequential loop -/

theorem crawl_single_queue_nil (e : Env) (c : ThreadedCrawler)
    (h : c.queue = []) : crawl_single e c = c := by
  rw [crawl_single.eq_def]
  split
  · rfl
  next u rest hq =>
    rw [h] at hq
    cases hq

theorem crawl_single_stop (e : Env) (c : ThreadedCrawler)
    (h : c.max_pages ≤ c.pages_crawled) : crawl_single e c = c := by
  rw [crawl_single.eq_def]
  split
  · rfl
  next u rest hq =>
    rw [dif_neg (by omega)]

theorem crawl_single_succ (e : Env) (c : ThreadedCrawler) (u : String)
    (rest : List String) (hq : c.queue = u :: rest)
    (hp : c.pages_crawled < c.max_pages) (hf : fetch e u ≠ "") :
    crawl_single e c = crawl_single e (seqStepSucc e c u rest) := by
  conv =>
    lhs
    rw [crawl_single.eq_def]
  split
  next h0 => rw [h0] at hq; cases hq
  next v vrest hv =>
    rw [hq] at hv
    cases hv
    rw [dif_pos hp, if_pos hf]

theorem crawl_single_fail (e : Env) (c : ThreadedCrawler) (u : String)
    (rest : List String) (hq : c.queue = u :: rest)
    (hp : c.pages_crawled < c.max_pages) (hf : fetch e u = "") :
    crawl_single e c = crawl_single e (seqStepPop c u rest) := by
  conv =>
    lhs
    rw [crawl_single.eq_def]
  split
  next h0 => rw [h0] at hq; cases hq
  next v vrest hv =>
    rw [hq] at hv
    cases hv
    rw [dif_pos hp, if_neg (by simp [hf])]

@[simp] theorem seqStepPop_queue (c : ThreadedCrawler) (u : String)
    (rest : List String) : (seqStepPop c u rest).queue = rest := rfl

@[simp] theorem seqStepPop_pages (c : ThreadedCrawler) (u : String)
    (rest : List String) :
    (seqStepPop c u rest).pages_crawled = c.pages_crawled := rfl

@[simp] theorem seqStepPop_max (c : ThreadedCrawler) (u : String)
    (rest : List String) : (seqStepPop c u rest).max_pages = c.max_pages :=
  rfl

@[simp] theorem seqStepPop_fetchLog (c : ThreadedCrawler) (u : String)
    (rest : List String) :
    (seqStepPop c u rest).fetchLog = c.fetchLog ++ [u] := rfl

@[simp] theorem parse_pages (e : Env) (url html : String)
    (c : ThreadedCrawler) :
    (c.parse e url html).pages_crawled = c.pages_crawled := rfl

@[simp] theorem parse_max (e : Env) (url html : String)
    (c : ThreadedCrawler) :
    (c.parse e url html).max_pages = c.max_pages := rfl

@[simp] theorem parse_fetchLog (e : Env) (url html : String)
    (c : ThreadedCrawler) :
    (c.parse e url html).fetchLog = c.fetchLog := rfl

theorem parse_queue (e : Env) (url html : String) (c : ThreadedCrawler) :
    (c.parse e url html).queue = c.queue ++ (e.findLinks html).filter
      (fun href => pyStartswith href "http" && !c.visited.contains href) :=
  rfl

@[simp] theorem seqStepSucc_pages (e : Env) (c : ThreadedCrawler)
    (u : String) (rest : List String) :
    (seqStepSucc e c u rest).pages_crawled = c.pages_crawled + 1 := rfl

@[simp] theorem seqStepSucc_max (e : Env) (c : ThreadedCrawler) (u : String)
    (rest : List String) :
    (seqStepSucc e c u rest).max_pages = c.max_pages := rfl

@[simp] theorem seqStepSucc_fetchLog (e : Env) (c : ThreadedCrawler)
    (u : String) (rest : List String) :
    (seqStepSucc e c u rest).fetchLog = c.fetchLog ++ [u] := rfl

/-- Every run of the sequential loop ends in one of the two valid terminal
states: the frontier is exhausted or the page budget has been reached. -/
theorem crawl_single_terminal (e : Env) (c : ThreadedCrawler) :
    (crawl_single e c).queue = [] ∨
      (crawl_single e c).max_pages ≤ (crawl_single e c).pages_crawled := by
  induction c using crawl_single.induct e with
  | case1 x hx =>
    left
    rw [crawl_single_queue_nil e x hx]
    exact hx
  | case2 x u rest hq hp hf ih =>
    rw [crawl_single_succ e x u rest hq hp hf]
    exact ih
  | case3 x u rest hq hp hnf ih =>
    rw [crawl_single_fail e x u rest hq hp (not_ne_iff.mp hnf)]
    exact ih
  | case4 x u rest hq hnp =>
    rw [crawl_single_stop e x (by omega)]
    right
    omega

theorem crawl_single_max (e : Env) (c : ThreadedCrawler) :
    (crawl_single e c).max_pages = c.max_pages := by
  induction c using crawl_single.induct e with
  | case1 x hx => rw [crawl_single_queue_nil e x hx]
  | case2 x u rest hq hp hf ih =>
    rw [crawl_single_succ e x u rest hq hp hf]
    rw [ih]
    simp
  | case3 x u rest hq hp hnf ih =>
    rw [crawl_single_fail e x u rest hq hp (not_ne_iff.mp hnf)]
    rw [ih]
    simp
  | case4 x u rest hq hnp =>
    rw [crawl_single_stop e x (by omega)]

theorem crawl_single_pages_le (e : Env) (c : ThreadedCrawler) :
    c.pages_crawled ≤ c.max_pages →
      (crawl_single e c).pages_crawled ≤ c.max_pages := by
  induction c using crawl_single.induct e with
  | case1 x hx =>
    intro h
    rw [crawl_single_queue_nil e x hx]
    exact h
  | case2 x u rest hq hp hf ih =>
    intro _
    rw [crawl_single_succ e x u rest hq hp hf]
    have h2 := ih (by simp; omega)
    simpa using h2
  | case3 x u rest hq hp hnf ih =>
    intro h
    rw [crawl_single_fail e x u rest hq hp (not_ne_iff.mp hnf)]
    have h2 := ih (by simpa using h)
    simpa using h2
  | case4 x u rest hq hnp =>
    intro h
    rw [crawl_single_stop e x (by omega)]
    exact h

theorem crawl_single_fetchLog_grows (e : Env) (c : ThreadedCrawler) :
    ∃ t, (crawl_single e c).fetchLog = c.fetchLog ++ t := by
  induction c using crawl_single.induct e with
  | case1 x hx =>
    exact ⟨[], by rw [crawl_single_queue_nil e x hx]; simp⟩
  | case2 x u rest hq hp hf ih =>
    obtain ⟨t, ht⟩ := ih
    refine ⟨u :: t, ?_⟩
    rw [crawl_single_succ e x u rest hq hp hf, ht]
    simp
  | case3 x u rest hq hp hnf ih =>
    obtain ⟨t, ht⟩ := ih
    refine ⟨u :: t, ?_⟩
    rw [crawl_single_fail e x u rest hq hp (not_ne_iff.mp hnf), ht]
    simp
  | case4 x u rest hq hnp =>
    exact ⟨[], by rw [crawl_single_stop e x (by omega)]; simp⟩

/-! ### Helper lemmas about the worker-pool loop -/

@[simp] theorem fetch_and_parse_pages (e : Env) (url : String)
    (c : ThreadedCrawler) :
    (c.fetch_and_parse e url).pages_crawled = c.pages_crawled := by
  simp only [ThreadedCrawler.fetch_and_parse]
  split <;> simp

@[simp] theorem fetch_and_parse_max (e : Env) (url : String)
    (c : ThreadedCrawler) :
    (c.fetch_and_parse e url).max_pages = c.max_pages := by
  simp only [ThreadedCrawler.fetch_and_parse]
  split <;> simp

@[simp] theorem refill_pages (futs : List String) (c : ThreadedCrawler) :
    (refill futs c).2.pages_crawled = c.pages_crawled := by
  unfold refill
  split <;> simp

@[simp] theorem refill_max (futs : List String) (c : ThreadedCrawler) :
    (refill futs c).2.max_pages = c.max_pages := by
  unfold refill
  split <;> simp

theorem refill_futs_le (futs : List String) (c : ThreadedCrawler) :
    (refill futs c).1.length ≤ futs.length + 1 := by
  unfold refill
  split <;> simp

/-- The worker-pool main loop increments pages_crawled by exactly one for
every completed future, with no condition on the fetch result. -/
theorem completeFuture_pages (e : Env) (url : String) (futs : List String)
    (c : ThreadedCrawler) :
    (completeFuture e url futs c).2.pages_crawled = c.pages_crawled + 1 := by
  unfold completeFuture
  simp

theorem completeFuture_max (e : Env) (url : String) (futs : List String)
    (c : ThreadedCrawler) :
    (completeFuture e url futs c).2.max_pages = c.max_pages := by
  unfold completeFuture
  simp

theorem completeFuture_futs_le (e : Env) (url : String) (futs : List String)
    (c : ThreadedCrawler) (h : url ∈ futs) :
    (completeFuture e url futs c).1.length ≤ futs.length := by
  have h1 : (completeFuture e url futs c).1.length ≤
      (futs.erase url).length + 1 := by
    simp only [completeFuture]
    exact refill_futs_le _ _
  have h2 := List.length_erase_add_one h
  omega

/-- Each batch adds exactly the number of valid done entries to
pages_crawled: one per completion, regardless of fetch success. -/
theorem processBatch_pages (e : Env) (done : List String) :
    ∀ (avail futs : List String) (c : ThreadedCrawler),
      (processBatch e done avail futs c).2.pages_crawled =
        c.pages_crawled + countValid done avail := by
  induction done with
  | nil => intro avail futs c; simp [processBatch, countValid]
  | cons u rest ih =>
    intro avail futs c
    by_cases hu : u ∈ avail
    · rw [processBatch, countValid, if_pos hu, if_pos hu]
      rw [ih]
      rw [completeFuture_pages]
      omega
    · rw [processBatch, countValid, if_neg hu, if_neg hu]
      rw [ih]

theorem processBatch_max (e : Env) (done : List String) :
    ∀ (avail futs : List String) (c : ThreadedCrawler),
      (processBatch e done avail futs c).2.max_pages = c.max_pages := by
  induction done with
  | nil => intro avail futs c; simp [processBatch]
  | cons u rest ih =>
    intro avail futs c
    by_cases hu : u ∈ avail
    · rw [processBatch, if_pos hu, ih, completeFuture_max]
    · rw [processBatch, if_neg hu, ih]

theorem countValid_le (done : List String) :
    ∀ avail : List String, countValid done avail ≤ avail.length := by
  induction done with
  | nil => intro avail; simp [countValid]
  | cons u rest ih =>
    intro avail
    by_cases hu : u ∈ avail
    · rw [countValid, if_pos hu]
      have h1 := ih (avail.erase u)
      have h2 := List.length_erase_add_one hu
      omega
    · rw [countValid, if_neg hu]
      exact (ih avail).trans (by simp)

/-- The futures list never grows past the snapshot taken at wait time: each
valid completion removes one in-flight future and submits at most one. -/
theorem erase_subperm_completeFuture (e : Env) (u : String)
    (futs : List String) (c : ThreadedCrawler) :
    List.Subperm (futs.erase u) (completeFuture e u futs c).1 := by
  simp only [completeFuture, refill]
  split
  · exact List.Subperm.refl _
  · exact (List.sublist_append_left _ _).subperm

theorem processBatch_futs_le (e : Env) (done : List String) :
    ∀ (avail futs : List String) (c : ThreadedCrawler),
      List.Subperm avail futs →
      (processBatch e done avail futs c).1.length ≤ futs.length := by
  induction done with
  | nil => intro avail futs c _; simp [processBatch]
  | cons u rest ih =>
    intro avail futs c hsub
    by_cases hu : u ∈ avail
    · rw [processBatch, if_pos hu]
      have humem : u ∈ futs := hsub.subset hu
      have hsub2 : List.Subperm (avail.erase u) (completeFuture e u futs c).1 :=
        (hsub.erase u).trans (erase_subperm_completeFuture e u futs c)
      have h3 := ih (avail.erase u) (completeFuture e u futs c).1
        (completeFuture e u futs c).2 hsub2
      have h4 := completeFuture_futs_le e u futs c humem
      show (processBatch e rest (avail.erase u) (completeFuture e u futs c).1
        (completeFuture e u futs c).2).1.length ≤ futs.length
      exact h3.trans h4
    · rw [processBatch, if_neg hu]
      exact ih avail futs c hsub

theorem kickoff_futs_le_queue :
    ∀ (n : Nat) (c : ThreadedCrawler),
      (kickoff n c).1.length ≤ c.queue.length := by
  intro n
  induction n with
  | zero => intro c; simp [kickoff]
  | succ m ih =>
    intro c
    rw [kickoff]
    match hq : c.queue with
    | [] => simp
    | u :: rest =>
      have h1 := ih (seqStepPop c u rest)
      simp only [seqStepPop_queue] at h1
      simp [hq, h1]

theorem kickoff_pages (n : Nat) (c : ThreadedCrawler) :
    (kickoff n c).2.pages_crawled = c.pages_crawled := by
  induction n generalizing c with
  | zero => simp [kickoff]
  | succ m ih =>
    rw [kickoff]
    match hq : c.queue with
    | [] => simp
    | u :: rest => simp [ih (seqStepPop c u rest)]

theorem kickoff_max (n : Nat) (c : ThreadedCrawler) :
    (kickoff n c).2.max_pages = c.max_pages := by
  induction n generalizing c with
  | zero => simp [kickoff]
  | succ m ih =>
    rw [kickoff]
    match hq : c.queue with
    | [] => simp
    | u :: rest => simp [ih (seqStepPop c u rest)]

/-- When at most one future is ever in flight, every iteration of the
crawl_threaded while loop completes at most one future after having checked
pages_crawled < max_pages, so the counter never passes the budget. A fresh
crawler has a one-element queue, hence kickoff submits at most one future,
hence this premise holds for every real run from a fresh crawler. -/
theorem thrLoop_pages_le (e : Env) (oracle : List (List String)) :
    ∀ (futs : List String) (c : ThreadedCrawler), futs.length ≤ 1 →
      c.pages_crawled ≤ c.max_pages →
      (thrLoop e oracle futs c).pages_crawled ≤ c.max_pages := by
  induction oracle with
  | nil => intro futs c _ h2; simpa [thrLoop] using h2
  | cons d ds ih =>
    intro futs c h1 h2
    rw [thrLoop]
    by_cases hg : futs ≠ [] ∧ c.pages_crawled < c.max_pages
    · rw [if_pos hg]
      have hp := processBatch_pages e d futs futs c
      have hcv := (countValid_le d futs).trans h1
      have hfl := processBatch_futs_le e d futs futs c (List.Subperm.refl _)
      have hm := processBatch_max e d futs futs c
      have h3 := ih (processBatch e d futs futs c).1
        (processBatch e d futs futs c).2 (hfl.trans h1) (by omega)
      rw [hm] at h3
      exact h3
    · rw [if_neg hg]
      exact h2

/-- From a freshly constructed ThreadedCrawler (whose queue holds exactly
the seed URL) the worker-pool strategy never exceeds the page budget: the
kickoff submits min 1 max_workers futures and each completion refills at
most one, so at most one future is ever in flight. -/
theorem crawl_threaded_budget (e : Env) (seed : String) (B W : Nat)
    (db : Option (List PageRec)) (oracle : List (List String)) :
    (crawl_threaded e W oracle (ThreadedCrawler.init seed B db)).pages_crawled
      ≤ B := by
  unfold crawl_threaded
  set c0 := ThreadedCrawler.init seed B db with hc0
  have hq : c0.queue.length = 1 := by simp [hc0, ThreadedCrawler.init]
  have h1 : (kickoff (min c0.queue.length W) c0).1.length ≤ 1 := by
    have := kickoff_futs_le_queue (min c0.queue.length W) c0
    omega
  have h2 : (kickoff (min c0.queue.length W) c0).2.pages_crawled ≤
      (kickoff (min c0.queue.length W) c0).2.max_pages := by
    rw [kickoff_pages, kickoff_max]
    simp [hc0, ThreadedCrawler.init]
  have h3 := thrLoop_pages_le e oracle (kickoff (min c0.queue.length W) c0).1
    (kickoff (min c0.queue.length W) c0).2 h1 h2
  rw [kickoff_max] at h3
  simpa [hc0, ThreadedCrawler.init] using h3

/-! ### Helper lemmas about the cooperative loop -/

@[simp] theorem async_parse_pages (e : Env) (url html : String)
    (a : AsyncCrawler) : (a.parse e url html).pages = a.pages := rfl

@[simp] theorem async_parse_max (e : Env) (url html : String)
    (a : AsyncCrawler) : (a.parse e url html).max_pages = a.max_pages := rfl

theorem async_parse_queue (e : Env) (url html : String) (a : AsyncCrawler) :
    (a.parse e url html).queue = a.queue ++
      ((e.findLinks html).map (fun href => e.urljoin url href)).filter
        (fun href => pyStartswith href "http" && !a.visited.contains href) :=
  rfl

theorem workerEnter_max (s : AsyncState) :
    (workerEnter s).crawler.max_pages = s.crawler.max_pages := by
  simp only [workerEnter]
  split
  · rfl
  · split
    · split <;> rfl
    · rfl

@[simp] theorem resumeProcess_pages (e : Env) (u : String)
    (a : AsyncCrawler) : (resumeProcess e u a).pages = a.pages + 1 := by
  simp only [resumeProcess]
  split <;> simp

@[simp] theorem resumeProcess_max (e : Env) (u : String)
    (a : AsyncCrawler) : (resumeProcess e u a).max_pages = a.max_pages := by
  simp only [resumeProcess]
  split <;> simp

theorem resumeContinue_max (s1 : AsyncState) (a2 : AsyncCrawler) :
    (resumeContinue s1 a2).crawler.max_pages = a2.max_pages := by
  simp only [resumeContinue]
  split
  · split <;> rfl
  · rfl

theorem workerResume_max (e : Env) (i : Nat) (s : AsyncState) :
    (workerResume e i s).crawler.max_pages = s.crawler.max_pages := by
  simp only [workerResume]
  split
  · rfl
  · rw [resumeContinue_max, resumeProcess_max]

theorem startAll_max (n : Nat) (s : AsyncState) :
    (startAll n s).crawler.max_pages = s.crawler.max_pages := by
  induction n generalizing s with
  | zero => simp [startAll]
  | succ m ih => rw [startAll, ih, workerEnter_max]

theorem runResumes_max (e : Env) (sched : List Nat) :
    ∀ s : AsyncState,
      (runResumes e sched s).crawler.max_pages = s.crawler.max_pages := by
  induction sched with
  | nil => intro s; simp [runResumes]
  | cons i rest ih => intro s; rw [runResumes, ih, workerResume_max]

theorem workerEnter_startInv (s : AsyncState) (h : startInv s) :
    startInv (workerEnter s) := by
  obtain ⟨h1, h2, h3, h4, h5⟩ := h
  simp only [workerEnter]
  split
  · exact ⟨h1, h2, h3, h4, h5⟩
  · split
    next hp =>
      split
      next hq => exact ⟨h1, by simpa [hq] using h2, h3, h4, h5⟩
      next u q hq =>
        have hemp : s.inflight = [] := by
          by_contra hne
          rw [h5 hne] at hq
          cases hq
        have hlen : s.crawler.queue.length = q.length + 1 := by
          rw [hq]
          rfl
        constructor
        · simp [hemp]
        constructor
        · simp only [AsyncState.mk.injEq]
          show q.length ≤ 1
          omega
        constructor
        · simpa using h3
        constructor
        · intro _
          simpa using hp
        · intro _
          show q = []
          have : q.length = 0 := by omega
          exact List.length_eq_zero.mp this
    next hp => exact ⟨h1, h2, h3, h4, h5⟩

theorem startAll_startInv (n : Nat) :
    ∀ s : AsyncState, startInv s → startInv (startAll n s) := by
  induction n with
  | zero => intro s h; simpa [startAll] using h
  | succ m ih =>
    intro s h
    rw [startAll]
    exact ih _ (workerEnter_startInv s h)

theorem resumeContinue_asyncInv (s1 : AsyncState) (a2 : AsyncCrawler)
    (hemp : s1.inflight = []) (hle : a2.pages ≤ a2.max_pages) :
    asyncInv (resumeContinue s1 a2) := by
  simp only [resumeContinue]
  split
  next hp =>
    split
    next hq =>
      exact ⟨by simp [hemp], by simpa using hle, by intro hne; simp [hemp] at hne⟩
    next v q hq =>
      refine ⟨by simp [hemp], by simpa using hle, ?_⟩
      intro _
      simpa using hp
  next hp =>
    exact ⟨by simp [hemp], by simpa using hle, by intro hne; simp [hemp] at hne⟩

theorem workerResume_asyncInv (e : Env) (i : Nat) (s : AsyncState)
    (h : asyncInv s) : asyncInv (workerResume e i s) := by
  obtain ⟨h1, h2, h3⟩ := h
  simp only [workerResume]
  match hg : s.inflight[i]? with
  | none => exact ⟨h1, h2, h3⟩
  | some u =>
    have hiv : i < s.inflight.length := by
      by_contra hge
      rw [List.getElem?_eq_none (by omega)] at hg
      cases hg
    have hone : s.inflight.length = 1 := by omega
    have hlow : s.crawler.pages < s.crawler.max_pages := by
      apply h3
      intro hnil
      rw [hnil] at hone
      cases hone
    have herase : s.inflight.eraseIdx i = [] := by
      have := List.length_eraseIdx_add_one hiv
      have h0 : (s.inflight.eraseIdx i).length = 0 := by omega
      exact List.length_eq_zero.mp h0
    apply resumeContinue_asyncInv
    · exact herase
    · rw [resumeProcess_pages, resumeProcess_max]
      omega

theorem runResumes_asyncInv (e : Env) (sched : List Nat) :
    ∀ s : AsyncState, asyncInv s → asyncInv (runResumes e sched s) := by
  induction sched with
  | nil => intro s h; simpa [runResumes] using h
  | cons i rest ih =>
    intro s h
    rw [runResumes]
    exact ih _ (workerResume_asyncInv e i s h)

/-- From a freshly constructed AsyncCrawler (whose queue holds exactly the
seed URL) the cooperative strategy never exceeds the page budget: all
workers start before any fetch completes, so all but possibly the first
finish at once on the empty queue, at most one fetch is ever in flight, and
each unconditional increment was preceded by a strict budget check. -/
theorem async_crawl_budget (e : Env) (seed : String) (B C : Nat)
    (sched : List Nat) :
    (AsyncCrawler.crawl e C sched (AsyncCrawler.init seed B)).crawler.pages
      ≤ B := by
  unfold AsyncCrawler.crawl
  have hinit : startInv
      { crawler := AsyncCrawler.init seed B, ns := C, inflight := [],
        fetchLog := [] } := by
    refine ⟨by simp, by simp [AsyncCrawler.init], by simp [AsyncCrawler.init], ?_, ?_⟩
    · intro hne
      simp at hne
    · intro hne
      simp at hne
  have hstart := startAll_startInv C _ hinit
  have hasync : asyncInv (startAll C
      { crawler := AsyncCrawler.init seed B, ns := C, inflight := [],
        fetchLog := [] }) := by
    obtain ⟨k1, _, k3, k4, _⟩ := hstart
    exact ⟨k1, k3, k4⟩
  have hrun := runResumes_asyncInv e sched _ hasync
  obtain ⟨_, r2, _⟩ := hrun
  have hm1 := runResumes_max e sched (startAll C
      { crawler := AsyncCrawler.init seed B, ns := C, inflight := [],
        fetchLog := [] })
  have hm2 := startAll_max C
      { crawler := AsyncCrawler.init seed B, ns := C, inflight := [],
        fetchLog := [] }
  rw [hm1, hm2] at r2
  simpa [AsyncCrawler.init] using r2

theorem resumeContinue_pages (s1 : AsyncState) (a2 : AsyncCrawler) :
    (resumeContinue s1 a2).crawler.pages = a2.pages := by
  simp only [resumeContinue]
  split
  · split <;> rfl
  · rfl

/-! ### Claim theorems -/

/-- Claim C1. The claim says a URL is marked seen at the moment it is
enqueued and is never popped and fetched twice in a run. The code marks a
URL visited only when it is popped, while the enqueue check in parse reads
that same visited set, so a URL enqueued twice before its first pop is
fetched twice. On the graph where http://a links twice to http://b
(budget 3, sequential strategy), the fetch trace is a, b, b: http://b is
popped and fetched twice. -/
theorem C1_duplicate_fetch :
    (crawl_single envC1 (ThreadedCrawler.init "http://a" 3 none)).fetchLog =
      ["http://a", "http://b", "http://b"] ∧
    ((crawl_single envC1
      (ThreadedCrawler.init "http://a" 3 none)).fetchLog).count
        "http://b" = 2 := by
  have h1 : crawl_single envC1 (ThreadedCrawler.init "http://a" 3 none) =
      crawl_single envC1
        (seqStepSucc envC1 (ThreadedCrawler.init "http://a" 3 none)
          "http://a" []) :=
    crawl_single_succ envC1 _ "http://a" [] (by decide) (by decide) (by decide)
  have h2 : crawl_single envC1
      (seqStepSucc envC1 (ThreadedCrawler.init "http://a" 3 none)
        "http://a" []) =
      crawl_single envC1
        (seqStepSucc envC1
          (seqStepSucc envC1 (ThreadedCrawler.init "http://a" 3 none)
            "http://a" []) "http://b" ["http://b"]) :=
    crawl_single_succ envC1 _ "http://b" ["http://b"] (by decide) (by decide)
      (by decide)
  have h3 : crawl_single envC1
      (seqStepSucc envC1
        (seqStepSucc envC1 (ThreadedCrawler.init "http://a" 3 none)
          "http://a" []) "http://b" ["http://b"]) =
      crawl_single envC1
        (seqStepSucc envC1
          (seqStepSucc envC1
            (seqStepSucc envC1 (ThreadedCrawler.init "http://a" 3 none)
              "http://a" []) "http://b" ["http://b"]) "http://b" []) :=
    crawl_single_succ envC1 _ "http://b" [] (by decide) (by decide) (by decide)
  have h4 : crawl_single envC1
      (seqStepSucc envC1
        (seqStepSucc envC1
          (seqStepSucc envC1 (ThreadedCrawler.init "http://a" 3 none)
            "http://a" []) "http://b" ["http://b"]) "http://b" []) =
      seqStepSucc envC1
        (seqStepSucc envC1
          (seqStepSucc envC1 (ThreadedCrawler.init "http://a" 3 none)
            "http://a" []) "http://b" ["http://b"]) "http://b" [] :=
    crawl_single_queue_nil envC1 _ (by decide)
  rw [h1, h2, h3, h4]
  exact ⟨by decide, by decide⟩

/-- Claim C2, counterexample. The claim says the worker-pool strategy
increments pagesCrawled only on non-empty fetches. On a run from a fresh
crawler whose single fetch fails (empty content), the main loop still
increments: final pages_crawled is 1 although no fetch succeeded (the claim
would make it 0). -/
theorem C2_counterexample :
    (crawl_threaded envFail 10 [["http://u"]]
      (ThreadedCrawler.init "http://u" 5 none)).pages_crawled = 1 ∧
    fetch envFail "http://u" = "" := by
  decide

/-- Claim C2, amended. In the worker-pool strategy pages_crawled is
incremented once per completed operation regardless of the fetch result:
over a whole batch the counter grows by exactly the number of completions
the done set contributes, and each single completion adds exactly one, with
no hypothesis on the fetched content. -/
theorem C2_completion_count :
    (∀ (e : Env) (done avail futs : List String) (c : ThreadedCrawler),
      (processBatch e done avail futs c).2.pages_crawled =
        c.pages_crawled + countValid done avail) ∧
    (∀ (e : Env) (u : String) (futs : List String) (c : ThreadedCrawler),
      (completeFuture e u futs c).2.pages_crawled = c.pages_crawled + 1) :=
  ⟨fun e done avail futs c => processBatch_pages e done avail futs c,
   fun e u futs c => completeFuture_pages e u futs c⟩

/-- Claim C3. The claim says every benchmark repetition starts from a fresh
crawler state. In main each crawler object is constructed once and time_fn
re-invokes the bound crawl method on that same object, so the second
repetition starts from the final state of the first: on the two-page graph
a to b with budget 2, the first repetition ends with pages_crawled = 2 and
the second repetition changes nothing at all (it fetches no URL), instead of
re-crawling from the seed as a fresh frontier would. -/
theorem C3_no_fresh_state :
    time_fn (crawl_single envC3) 2 (ThreadedCrawler.init "http://a" 2 none) =
      time_fn (crawl_single envC3) 1
        (ThreadedCrawler.init "http://a" 2 none) ∧
    (time_fn (crawl_single envC3) 1
      (ThreadedCrawler.init "http://a" 2 none)).pages_crawled = 2 ∧
    (time_fn (crawl_single envC3) 1
      (ThreadedCrawler.init "http://a" 2 none)).fetchLog =
      ["http://a", "http://b"] := by
  have hrun : crawl_single envC3 (ThreadedCrawler.init "http://a" 2 none) =
      seqStepSucc envC3
        (seqStepSucc envC3 (ThreadedCrawler.init "http://a" 2 none)
          "http://a" []) "http://b" [] := by
    have h1 : crawl_single envC3 (ThreadedCrawler.init "http://a" 2 none) =
        crawl_single envC3
          (seqStepSucc envC3 (ThreadedCrawler.init "http://a" 2 none)
            "http://a" []) :=
      crawl_single_succ envC3 _ "http://a" [] (by decide) (by decide)
        (by decide)
    have h2 : crawl_single envC3
        (seqStepSucc envC3 (ThreadedCrawler.init "http://a" 2 none)
          "http://a" []) =
        crawl_single envC3
          (seqStepSucc envC3
            (seqStepSucc envC3 (ThreadedCrawler.init "http://a" 2 none)
              "http://a" []) "http://b" []) :=
      crawl_single_succ envC3 _ "http://b" [] (by decide) (by decide)
        (by decide)
    have h3 : crawl_single envC3
        (seqStepSucc envC3
          (seqStepSucc envC3 (ThreadedCrawler.init "http://a" 2 none)
            "http://a" []) "http://b" []) =
        seqStepSucc envC3
          (seqStepSucc envC3 (ThreadedCrawler.init "http://a" 2 none)
            "http://a" []) "http://b" [] :=
      crawl_single_queue_nil envC3 _ (by decide)
    rw [h1, h2, h3]
  refine ⟨?_, ?_, ?_⟩
  · show crawl_single envC3
        (crawl_single envC3 (ThreadedCrawler.init "http://a" 2 none)) =
      crawl_single envC3 (ThreadedCrawler.init "http://a" 2 none)
    rw [hrun]
    exact crawl_single_stop envC3 _ (by decide)
  · show (crawl_single envC3
        (ThreadedCrawler.init "http://a" 2 none)).pages_crawled = 2
    rw [hrun]
    decide
  · show (crawl_single envC3
        (ThreadedCrawler.init "http://a" 2 none)).fetchLog =
      ["http://a", "http://b"]
    rw [hrun]
    decide

/-- Claim C4. For every crawl run from a freshly constructed crawler (whose
queue holds exactly the seed URL), under any environment, budget, pool
size, completion oracle, and cooperative schedule, the final page counter
never exceeds the budget in any of the three strategies. In the two
concurrent strategies this holds because at most one operation is ever in
flight from a single seed: the worker-pool kickoff dispatches min 1
max_workers futures and refills one per completion; the asyncio workers all
take their first step before any fetch completes, so every worker but the
first finds the queue empty and finishes immediately. -/
theorem C4_budget_bound (e : Env) (seed : String) (B W conc : Nat)
    (db : Option (List PageRec)) (oracle : List (List String))
    (sched : List Nat) :
    (crawl_single e (ThreadedCrawler.init seed B db)).pages_crawled ≤ B ∧
    (crawl_threaded e W oracle
      (ThreadedCrawler.init seed B db)).pages_crawled ≤ B ∧
    (AsyncCrawler.crawl e conc sched
      (AsyncCrawler.init seed B)).crawler.pages ≤ B := by
  refine ⟨?_, crawl_threaded_budget e seed B W db oracle,
    async_crawl_budget e seed B conc sched⟩
  have h := crawl_single_pages_le e (ThreadedCrawler.init seed B db)
    (by simp [ThreadedCrawler.init])
  simpa [ThreadedCrawler.init] using h

/-- Claim C5. The sequential strategy is exactly the stated loop: it
returns unchanged (a valid, non-error terminal state) when the frontier is
empty or the budget is reached; otherwise it pops the head URL, fetches it,
and -- exactly when the content is non-empty -- parses it (pushing the
filtered discovered links into the frontier) and increments pages_crawled by
one, with a failed fetch contributing only the pop; and every run ends with
the frontier exhausted or the budget reached. -/
theorem C5_sequential_loop (e : Env) (c : ThreadedCrawler) :
    (c.queue = [] → crawl_single e c = c) ∧
    (c.max_pages ≤ c.pages_crawled → crawl_single e c = c) ∧
    (∀ (u : String) (rest : List String), c.queue = u :: rest →
      c.pages_crawled < c.max_pages →
      crawl_single e c = crawl_single e
        (if fetch e u ≠ "" then seqStepSucc e c u rest
         else seqStepPop c u rest)) ∧
    ((crawl_single e c).queue = [] ∨
      (crawl_single e c).max_pages ≤ (crawl_single e c).pages_crawled) := by
  refine ⟨crawl_single_queue_nil e c, crawl_single_stop e c, ?_,
    crawl_single_terminal e c⟩
  intro u rest hq hp
  by_cases hf : fetch e u = ""
  · rw [if_neg (by simp [hf])]
    exact crawl_single_fail e c u rest hq hp hf
  · rw [if_pos hf]
    exact crawl_single_succ e c u rest hq hp hf

/-- Witness for C5 at a concrete input: the first iteration of the loop on
a fresh crawler seeded with http://a under the stub environment envC1. -/
theorem C5_sequential_loop_witness :
    crawl_single envC1 (ThreadedCrawler.init "http://a" 3 none) =
      crawl_single envC1
        (if fetch envC1 "http://a" ≠ "" then
          seqStepSucc envC1 (ThreadedCrawler.init "http://a" 3 none)
            "http://a" []
         else seqStepPop (ThreadedCrawler.init "http://a" 3 none)
            "http://a" []) :=
  (C5_sequential_loop envC1 (ThreadedCrawler.init "http://a" 3 none)).2.2.1
    "http://a" [] (by decide) (by decide)

/-- Claim C6, counterexample. The claim contrasts the cooperative rule with
a success-only rule in the worker-pool strategy; that contrast is false: on
a worker-pool run from a fresh crawler whose single fetch fails, the main
loop still increments pages_crawled to 1. -/
theorem C6_counterexample :
    (crawl_threaded envFail 5 [["http://w"]]
      (ThreadedCrawler.init "http://w" 7 none)).pages_crawled = 1 ∧
    fetch envFail "http://w" = "" := by
  decide

/-- Claim C6, amended. In the cooperative strategy every resumed worker
iteration increments the shared page counter by exactly one with no
condition on the fetched content; the worker-pool strategy does the same for
every completed operation; only the sequential strategy is success-only (a
failed fetch there contributes nothing beyond the pop). -/
theorem C6_unconditional_increment :
    (∀ (e : Env) (i : Nat) (s : AsyncState) (u : String),
      s.inflight[i]? = some u →
      (workerResume e i s).crawler.pages = s.crawler.pages + 1) ∧
    (∀ (e : Env) (u : String) (futs : List String) (c : ThreadedCrawler),
      (completeFuture e u futs c).2.pages_crawled = c.pages_crawled + 1) ∧
    (∀ (e : Env) (c : ThreadedCrawler) (u : String) (rest : List String),
      c.queue = u :: rest → c.pages_crawled < c.max_pages →
      fetch e u = "" →
      crawl_single e c = crawl_single e (seqStepPop c u rest)) := by
  refine ⟨?_, fun e u futs c => completeFuture_pages e u futs c,
    fun e c u rest hq hp hf => crawl_single_fail e c u rest hq hp hf⟩
  intro e i s u hg
  simp only [workerResume, hg]
  rw [resumeContinue_pages, resumeProcess_pages]

/-- Witness for C6 at a concrete input: resuming the single in-flight
worker of a concrete cooperative state whose fetch failed still increments
the page counter by one. -/
theorem C6_unconditional_increment_witness :
    (workerResume envFail 0
      { crawler := AsyncCrawler.init "http://w" 7, ns := 0,
        inflight := ["http://w"],
        fetchLog := ["http://w"] }).crawler.pages =
      ({ crawler := AsyncCrawler.init "http://w" 7, ns := 0,
         inflight := ["http://w"],
         fetchLog := ["http://w"] } : AsyncState).crawler.pages + 1 :=
  C6_unconditional_increment.1 envFail 0 _ "http://w" (by decide)

/-- Claim C7, counterexample. The claim says every strategy resolves
relative links against the base URL and keeps only http or https schemes.
In the sequential and worker-pool strategies parse uses each href exactly as
found: the relative href page2.html is dropped (no resolved form of it is
pushed) and the href httpfake://evil is pushed even though its scheme is
neither http nor https, because the filter is a literal prefix test for the
four characters http. -/
theorem C7_counterexample :
    (ThreadedCrawler.parse envC7 "http://base/" "PAGE"
      (seqStepPop (ThreadedCrawler.init "http://base/" 5 none)
        "http://base/" [])).queue = ["httpfake://evil"] ∧
    envC7.findLinks "PAGE" = ["page2.html", "httpfake://evil"] ∧
    envC7.urljoin "http://base/" "page2.html" = "http://base/page2.html" := by
  refine ⟨by decide, by decide, by decide⟩

/-- Claim C7, amended. The link pipeline differs between the strategies:
the cooperative strategy resolves every href against the page URL with
urljoin before filtering, while the sequential and worker-pool strategies
use each href exactly as found, so their filters drop relative links
instead of resolving them. In both, the filter keeps exactly the hrefs that
start with the literal character sequence http (hence also schemes that are
neither http nor https) and are not in the visited set. -/
theorem C7_extraction_shape (e : Env) (url html : String)
    (c : ThreadedCrawler) (a : AsyncCrawler) :
    (c.parse e url html).queue = c.queue ++ (e.findLinks html).filter
      (fun href => pyStartswith href "http" && !c.visited.contains href) ∧
    (a.parse e url html).queue = a.queue ++
      ((e.findLinks html).map (fun href => e.urljoin url href)).filter
        (fun href => pyStartswith href "http" && !a.visited.contains href) :=
  ⟨parse_queue e url html c, async_parse_queue e url html a⟩

/-- Claim C8. A failing HTTP request (timeout, connection error, or
non-success status turned into an exception by raise_for_status) is
swallowed at the fetch boundary and downgraded to empty content -- fetch is
a total function into String, so no exception reaches the caller -- while a
successful request returns its body unchanged. Consequently a failed fetch
never halts the sequential crawl: the iteration just pops the URL and the
loop goes on, and every run still ends only in the two valid terminal
states (frontier exhausted or budget reached). -/
theorem C8_fetch_failure_isolation (e : Env) :
    (∀ (url : String) (err : FetchError),
      e.rawGet url = Except.error err → fetch e url = "") ∧
    (∀ (url t : String), e.rawGet url = Except.ok t → fetch e url = t) ∧
    (∀ c : ThreadedCrawler, (crawl_single e c).queue = [] ∨
      (crawl_single e c).max_pages ≤ (crawl_single e c).pages_crawled) ∧
    (∀ (c : ThreadedCrawler) (u : String) (rest : List String),
      c.queue = u :: rest → c.pages_crawled < c.max_pages →
      fetch e u = "" →
      crawl_single e c = crawl_single e (seqStepPop c u rest)) := by
  refine ⟨?_, ?_, fun c => crawl_single_terminal e c,
    fun c u rest hq hp hf => crawl_single_fail e c u rest hq hp hf⟩
  · intro url err h
    simp [fetch, h]
  · intro url t h
    simp [fetch, h]

/-- Witness for C8 at a concrete input: under the always-failing stub
environment the fetch of http://x returns empty content, and the iteration
that popped http://x continues the crawl with only the pop. -/
theorem C8_fetch_failure_isolation_witness :
    fetch envFail "http://x" = "" ∧
    crawl_single envFail (ThreadedCrawler.init "http://x" 2 none) =
      crawl_single envFail
        (seqStepPop (ThreadedCrawler.init "http://x" 2 none) "http://x" []) :=
  ⟨(C8_fetch_failure_isolation envFail).1 "http://x" FetchError.timeout rfl,
   (C8_fetch_failure_isolation envFail).2.2.2
     (ThreadedCrawler.init "http://x" 2 none) "http://x" [] (by decide)
     (by decide) (by decide)⟩

/-- Claim C9. Both constructors place the seed URL directly into the
pending queue with no scheme check and without marking it seen (visited
starts empty), and with a positive budget the first loop iteration pops and
fetches that seed whatever string it is: in the sequential strategy the
first entry of the fetch trace is the seed, and in the cooperative strategy
the first worker to start pops the seed and begins fetching it. -/
theorem C9_seed_bypass (seed : String) (B conc : Nat)
    (db : Option (List PageRec)) (e : Env) :
    (ThreadedCrawler.init seed B db).queue = [seed] ∧
    (ThreadedCrawler.init seed B db).visited = [] ∧
    (AsyncCrawler.init seed B).queue = [seed] ∧
    (AsyncCrawler.init seed B).visited = [] ∧
    (0 < B →
      ((crawl_single e (ThreadedCrawler.init seed B db)).fetchLog).head? =
        some seed) ∧
    (0 < B → 0 < conc →
      (workerEnter
        (⟨AsyncCrawler.init seed B, conc, [], []⟩ : AsyncState)).fetchLog =
          [seed] ∧
      (workerEnter
        (⟨AsyncCrawler.init seed B, conc, [], []⟩ : AsyncState)).inflight =
          [seed]) := by
  refine ⟨rfl, rfl, rfl, rfl, ?_, ?_⟩
  · intro hB
    by_cases hf : fetch e seed = ""
    · have h := crawl_single_fail e (ThreadedCrawler.init seed B db) seed []
        rfl (by simpa [ThreadedCrawler.init] using hB) hf
      obtain ⟨t, ht⟩ := crawl_single_fetchLog_grows e
        (seqStepPop (ThreadedCrawler.init seed B db) seed [])
      rw [h, ht]
      simp [ThreadedCrawler.init, seqStepPop]
    · have h := crawl_single_succ e (ThreadedCrawler.init seed B db) seed []
        rfl (by simpa [ThreadedCrawler.init] using hB) hf
      obtain ⟨t, ht⟩ := crawl_single_fetchLog_grows e
        (seqStepSucc e (ThreadedCrawler.init seed B db) seed [])
      rw [h, ht]
      simp [ThreadedCrawler.init]
  · intro hB hC
    match conc, hC with
    | n + 1, _ =>
      constructor <;> simp [workerEnter, AsyncCrawler.init, hB]

/-- Witness for C9 at a concrete input: a seed with an ftp scheme is still
the first URL fetched by the sequential loop and the first URL a
cooperative worker starts fetching. -/
theorem C9_seed_bypass_witness :
    ((crawl_single envFail
      (ThreadedCrawler.init "ftp://files.example" 2 none)).fetchLog).head? =
      some "ftp://files.example" ∧
    (workerEnter
      (⟨AsyncCrawler.init "ftp://files.example" 2, 1, [], []⟩ :
        AsyncState)).fetchLog = ["ftp://files.example"] :=
  ⟨(C9_seed_bypass "ftp://files.example" 2 1 none envFail).2.2.2.2.1
      (by decide),
   ((C9_seed_bypass "ftp://files.example" 2 1 none envFail).2.2.2.2.2
      (by decide) (by decide)).1⟩

/-- Claim C10. When a persistence store is configured, constructing the
threaded crawler empties the whole webpages collection as a side effect of
construction (before any crawling): whatever documents the store held, the
collection right after construction is the configured empty one; with no
store configured there is no collection at all. -/
theorem C10_construction_clears_store (seed : String) (B : Nat)
    (docs : List PageRec) :
    (ThreadedCrawler.init seed B (some docs)).collection = some [] ∧
    (ThreadedCrawler.init seed B none).collection = none :=
  ⟨rfl, rfl⟩
